import Mathlib

/-!
Verification of the `flog` file-backed logging package.

The Go sources are embedded shallowly:
* strings are `List Char` (`Str`), `strings.ToUpper` is `List.map Char.toUpper`
  (the package only uppercases ASCII log names);
* the fragment of `fmt.Sprintf` that the package exercises (plain one-character
  verbs, `%%`, missing/extra argument noise, and Go's bracketed rendering of
  `[]interface{}` slices) is modelled by `sprintfGo` over `GoVal` values;
* functions that can panic return `Option`/an explicit `panicked` constructor;
* the buffered logger's concurrency (foreground `Print`/`SetFlushIntervalSec`,
  the `asyncFlush` goroutine, and `Close` with its unbuffered-channel
  rendezvous) is a labelled small-step transition system `Step`/`Steps`.
-/

namespace Flog

/-- Go strings, embedded as lists of characters. -/
abbrev Str := List Char

/-- Go `strings.ToUpper` as used on ASCII log names. -/
def goUpper (s : Str) : Str := s.map Char.toUpper

/-- The `"[" + strings.ToUpper(name) + "] "` tag that `fixFormat`
(init.go:162-176) builds with `fmt.Sprintf("[%s] %s", ...)`. -/
def fmtTag (name : Str) : Str := ('[' :: goUpper name) ++ [']', ' ']

/-- Model of `fixFormat` (init.go:162-176).  The source reads `format[len(format)-1]`,
which panics (index out of range) on the empty string; the panic is modelled
as `none`.  Otherwise the tag is prepended and a `'\n'` is appended exactly
when the last character of `format` is not already `'\n'`. -/
def fixFormat (name format : Str) : Option Str :=
  match format.getLast? with
  | none => none
  | some c =>
    if c = '\n' then some (fmtTag name ++ format)
    else some (fmtTag name ++ format ++ ['\n'])

/-- A Go `interface{}` value as passed to the variadic `Print` methods:
the package's callers supply ints, strings, and (via the variadic-wrapping
slip in DirectLog.Print) `[]interface{}` slices. -/
inductive GoVal where
  | int (n : Int)
  | str (s : Str)
  | list (vs : List GoVal)

/-- Go reflect-style type name used in `fmt`'s `%!(EXTRA type=value)` noise. -/
def goType : GoVal → Str
  | .int _ => "int".data
  | .str _ => "string".data
  | .list _ => ("[]interface " ++ "\x7b\x7d").data

mutual
/-- Rendering of one operand by a one-character `fmt` verb: ints print in
decimal, `%d` on a string produces Go's `%!d(string=...)` noise, and slices
print bracketed with space-separated elements (recursively). -/
def render (verb : Char) : GoVal → Str
  | .int n => (toString n).data
  | .str s => if verb = 'd' then ("%!d(string=".data ++ s ++ [')']) else s
  | .list vs => ('[' :: renderItems verb vs) ++ [']']
/-- Space-separated rendering of the elements of a Go slice. -/
def renderItems (verb : Char) : List GoVal → Str
  | [] => []
  | [v] => render verb v
  | v :: vs => render verb v ++ (' ' :: renderItems verb vs)
end

/-- The `type=value` items of `fmt`'s `%!(EXTRA ...)` suffix. -/
def extraItems : List GoVal → Str
  | [] => []
  | [a] => goType a ++ ('=' :: render 'v' a)
  | a :: as => (goType a ++ ('=' :: render 'v' a)) ++ (',' :: ' ' :: extraItems as)

/-- The fragment of `fmt.Sprintf` exercised by the package: literal
characters are copied, `%%` prints `%`, a one-character verb consumes one
operand (`%!<verb>(MISSING)` when operands are exhausted), a trailing lone
`%` prints `%!(NOVERB)`, and leftover operands append `%!(EXTRA ...)`. -/
def sprintfGo : Str → List GoVal → Str
  | [], [] => []
  | [], a :: as => "%!(EXTRA ".data ++ extraItems (a :: as) ++ [')']
  | ['%'], [] => "%!(NOVERB)".data
  | ['%'], a :: as => "%!(NOVERB)".data ++ sprintfGo [] (a :: as)
  | '%' :: '%' :: rest, args => '%' :: sprintfGo rest args
  | '%' :: v :: rest, [] => ('%' :: '!' :: v :: "(MISSING)".data) ++ sprintfGo rest []
  | '%' :: v :: rest, a :: args => render v a ++ sprintfGo rest args
  | c :: rest, args => c :: sprintfGo rest args

/-- The formatted body produced by `BufferedLog.Print` + `BufferedLog.print`
(BufferedLog.go:96-109, 151-163) on an enabled logger: `fixFormat` runs
first, then with no arguments (`v == nil`) the fixed template is logged
verbatim (`logger.Print`), and with arguments the template is expanded via
`logger.Printf(format, v...)` — both wrapping levels forward with `v...`,
so the caller's operands reach `Sprintf` unchanged. -/
def bufferedPrintBody (name template : Str) (args : List GoVal) : Option Str :=
  match fixFormat name template with
  | none => none
  | some f => if args.isEmpty then some f else some (sprintfGo f args)

/-- The formatted body produced by `DirectLog.Print` + `DirectLog.print`
(DirectLog.go:266-293).  `Print` passes `this.print(format, v)` (no `...`),
wrapping the operand slice once, and `print` again passes
`this.logger.Printf(format, v)` (no `...`), wrapping it a second time: the
single operand reaching `Sprintf` is the doubly wrapped argument list. -/
def directPrintBody (name template : Str) (args : List GoVal) : Option Str :=
  match fixFormat name template with
  | none => none
  | some f =>
    if args.isEmpty then some f
    else some (sprintfGo f [.list [.list args]])

/-- Go `log.Ldate`. -/
def Ldate : Nat := 1
/-- Go `log.Ltime`. -/
def Ltime : Nat := 2
/-- Go `log.Lmicroseconds`. -/
def Lmicroseconds : Nat := 4
/-- Go `log.Llongfile`. -/
def Llongfile : Nat := 8
/-- Go `log.Lshortfile`. -/
def Lshortfile : Nat := 16
/-- Model of `FLogFlags = log.Ldate | log.Lmicroseconds | log.Lshortfile`
(init.go:30): the flags handed to `log.New` for every flog logger. -/
def FLogFlags : Nat := Ldate ||| Lmicroseconds ||| Lshortfile

/-- Go `log` package `itoa`: fixed-width zero-padded decimal. -/
def itoa (n w : Nat) : Str :=
  let s := (toString n).data
  List.replicate (w - s.length) '0' ++ s

/-- Go `log.Logger.formatHeader` for an empty prefix: with `Ldate` a
`YYYY/MM/DD ` field, with `Ltime`/`Lmicroseconds` an `HH:MM:SS` field
(plus `.micros` under `Lmicroseconds`) and a space, and with
`Lshortfile`/`Llongfile` a `file:line: ` field (`file` is already the
basename in the short case). -/
def formatHeader (flags : Nat) (year month day hour minute sec nsec : Nat)
    (file : Str) (line : Nat) : Str :=
  (if flags &&& (Ldate ||| Ltime ||| Lmicroseconds) ≠ 0 then
    (if flags &&& Ldate ≠ 0 then
      itoa year 4 ++ ('/' :: itoa month 2) ++ ('/' :: itoa day 2) ++ [' ']
    else [])
    ++
    (if flags &&& (Ltime ||| Lmicroseconds) ≠ 0 then
      (itoa hour 2 ++ (':' :: itoa minute 2) ++ (':' :: itoa sec 2)
        ++ (if flags &&& Lmicroseconds ≠ 0 then '.' :: itoa (nsec / 1000) 6 else []))
      ++ [' ']
    else [])
  else [])
  ++
  (if flags &&& (Lshortfile ||| Llongfile) ≠ 0 then
    file ++ (':' :: (toString line).data) ++ [':', ' ']
  else [])

/-- Go `log.Logger.Output`: the flag header followed by the message, with a
`'\n'` appended when the message does not already end in one. -/
def loggerOutput (flags : Nat) (year month day hour minute sec nsec : Nat)
    (file : Str) (line : Nat) (msg : Str) : Str :=
  formatHeader flags year month day hour minute sec nsec file line
    ++ (if msg.getLast? = some '\n' then msg else msg ++ ['\n'])

/-- One entry as it lands in the buffer (and hence, byte for byte, in the
backing log file): the body built by `BufferedLog.print` written through the
`log.New(&bLog.buffer, "", FLogFlags)` logger, i.e. decorated with the
`FLogFlags` header for the wall-clock instant and call site of the write. -/
def bufferedLogLine (year month day hour minute sec nsec : Nat) (file : Str)
    (line : Nat) (name template : Str) (args : List GoVal) : Option Str :=
  (bufferedPrintBody name template args).map
    (loggerOutput FLogFlags year month day hour minute sec nsec file line)

/-- The mutable state of a `BufferedLog` (BufferedLog.go:29-39).  `buffer`
and `file` hold formatted entries (the `bytes.Buffer` contents and what has
been flushed through `*os.File`, entry by entry); `enabled` and `flushSec`
are the two `int32` atomics; `chClose` and the goroutine are modelled by the
transition system below, and the `sync.RWMutex` by its interleaving
restrictions. -/
structure BufferedLog where
  baseDir : Str
  buffer : List Str
  enabled : Int
  file : List Str
  flushSec : Int
  name : Str
  fileClosed : Bool
deriving DecidableEq

/-- Model of `BufferedLog.FlushIntervalSec` (BufferedLog.go:82-84):
`atomic.LoadInt32(&this.flushSec)`. -/
def BufferedLog.FlushIntervalSec (this : BufferedLog) : Int :=
  this.flushSec

/-- Model of `BufferedLog.SetFlushIntervalSec` (BufferedLog.go:113-115):
`atomic.StoreInt32(&this.flushSec, interval)` — no validation. -/
def BufferedLog.SetFlushIntervalSec (this : BufferedLog) (interval : Int) :
    BufferedLog :=
  { this with flushSec := interval }

/-- Constant `BufferedFile` (init.go:37, `iota`). -/
def BufferedFile : Int := 0
/-- Constant `DirectFile` (init.go:38). -/
def DirectFile : Int := 1
/-- Constant `DefaultFlushIntervalSec` (init.go:27). -/
def DefaultFlushIntervalSec : Int := 5

/-- Why a run of `New` aborts the process. -/
inductive PanicReason where
  | mkdirFailed
  | nilDereference
deriving DecidableEq

/-- The logger `New` hands back on success (kind tag plus the constructor
arguments recorded in init.go:68-104; the emitted init marker is covered by
the print/format model). -/
inductive MadeLog where
  | buffered (name baseDir : Str) (flushSec : Int)
  | direct (name baseDir : Str)
deriving DecidableEq

/-- Outcome of `New`: a normal return (`none` models Go's `return nil` on
open failure) or a process-aborting panic. -/
inductive NewResult where
  | returned (h : Option MadeLog)
  | panicked (r : PanicReason)
deriving DecidableEq

/-- Model of `New` (init.go:54-109) over an environment telling whether
`os.MkdirAll` and `os.OpenFile` succeed.  `mkdir` (init.go:184-189) panics
on error; `OpenFile` failure returns `nil` (init.go:64-66); the `switch` on
`logType` has no default, so any other value leaves `newLog` nil and the
`newLog.Print("==== Log init ====")` at init.go:106 dereferences a nil
interface and panics. -/
def New (mkdirOk openOk : Bool) (name logPath : Str) (logType : Int) :
    NewResult :=
  if mkdirOk then
    if openOk then
      if logType = BufferedFile then
        .returned (some (.buffered name logPath DefaultFlushIntervalSec))
      else if logType = DirectFile then
        .returned (some (.direct name logPath))
      else .panicked .nilDereference
    else .returned none
  else .panicked .mkdirFailed

/-- Program counter of the `asyncFlush` goroutine (BufferedLog.go:119-136):
`load` is the top of the loop about to read `flushSec`; `selecting d` is
blocked in the `select` with a `time.After(d seconds)` timer armed;
`shutdownPrint` has received from `chClose` and is about to
`print("Async log shutdown")`; `sendAck` is the final `chClose <- nil`;
`done` is a terminated goroutine. -/
inductive TaskPC where
  | load
  | selecting (d : Int)
  | shutdownPrint
  | sendAck
  | done
deriving DecidableEq

/-- The goroutine is still in its flush loop. -/
def TaskPC.running : TaskPC → Prop
  | .load => True
  | .selecting _ => True
  | _ => False

/-- Program counter of the foreground thread with respect to `Close`
(BufferedLog.go:51-68): `idle` (Close not called, read-lock callers may
run), then — holding the write lock — `disable`, `marker`, `send` (blocked
on `chClose <- nil`), `recv` (blocked on `<-chClose`), `flush`, `closeFile`,
`done`. -/
inductive CloserPC where
  | idle
  | disable
  | marker
  | send
  | recv
  | flush
  | closeFile
  | done
deriving DecidableEq

/-- Labels of the transition system. -/
inductive Ev where
  | fgPrint (line : Str)
  | fgDrop (line : Str)
  | setInterval (n : Int)
  | taskLoad
  | taskFlush (d : Int)
  | taskMark
  | cDisable
  | cMarker
  | cSend
  | cRecv
  | cFlush
  | cClose
deriving DecidableEq

/-- A configuration: the shared `BufferedLog` state plus the two threads'
program counters. -/
structure Cfg where
  log : BufferedLog
  closer : CloserPC
  task : TaskPC
deriving DecidableEq

/-- Labelled small-step semantics of one `BufferedLog` with its `asyncFlush`
goroutine and a foreground thread.  `cl` and `sl` are the already formatted
`"==== Close log ===="` and `"Async log shutdown"` entries (their exact
bytes depend on the wall clock via the `FLogFlags` header, see
`bufferedLogLine`).  `chClose` is unbuffered (`make(chan interface{}, 0)`,
init.go:73), so each send pairs with a receive in a single joint step.
Foreground `Print` runs only while `Close` does not hold the write lock
(`closer = idle`); the `flushSec` atomics are lock-free and may step at any
time. -/
inductive Step (cl sl : Str) : Cfg → Ev → Cfg → Prop where
  /-- Foreground `Print` on an enabled logger (BufferedLog.go:96-109): under the read
  lock, the formatted entry is appended to the buffer. -/
  | fgPrint (b : BufferedLog) (t : TaskPC) (l : Str) (h : ¬ b.enabled < 1) :
      Step cl sl ⟨b, .idle, t⟩ (.fgPrint l)
        ⟨{ b with buffer := b.buffer ++ [l] }, .idle, t⟩
  /-- Foreground `Print` on a disabled logger: `atomic.LoadInt32(&this.enabled) < 1`
  returns without touching the buffer. -/
  | fgDrop (b : BufferedLog) (t : TaskPC) (l : Str) (h : b.enabled < 1) :
      Step cl sl ⟨b, .idle, t⟩ (.fgDrop l) ⟨b, .idle, t⟩
  /-- Step for `SetFlushIntervalSec` (BufferedLog.go:113-115): an atomic store,
  legal in any phase, touching only `flushSec`. -/
  | setInterval (b : BufferedLog) (c : CloserPC) (t : TaskPC) (n : Int) :
      Step cl sl ⟨b, c, t⟩ (.setInterval n) ⟨b.SetFlushIntervalSec n, c, t⟩
  /-- Top of the `asyncFlush` loop (BufferedLog.go:123):
  `flushSec := atomic.LoadInt32(&this.flushSec)` arms the `select` timer
  with the value read now. -/
  | taskLoad (b : BufferedLog) (c : CloserPC) :
      Step cl sl ⟨b, c, .load⟩ .taskLoad ⟨b, c, .selecting b.flushSec⟩
  /-- The `time.After` branch (BufferedLog.go:130-131): the timer armed
  with `d` fires and `flushLogs` moves the whole buffer to the file. -/
  | taskFlush (b : BufferedLog) (c : CloserPC) (d : Int) :
      Step cl sl ⟨b, c, .selecting d⟩ (.taskFlush d)
        ⟨{ b with buffer := [], file := b.file ++ b.buffer }, c, .load⟩
  /-- Go `Close` step 1 (BufferedLog.go:55): `this.enabled = 0` under the
  write lock. -/
  | cDisable (b : BufferedLog) (t : TaskPC) :
      Step cl sl ⟨b, .disable, t⟩ .cDisable
        ⟨{ b with enabled := 0 }, .marker, t⟩
  /-- Go `Close` step 2 (BufferedLog.go:57): the internal
  `this.print("==== Close log ====")` appends the marker to the buffer,
  bypassing the `enabled` gate of the public `Print`. -/
  | cMarker (b : BufferedLog) (t : TaskPC) :
      Step cl sl ⟨b, .marker, t⟩ .cMarker
        ⟨{ b with buffer := b.buffer ++ [cl] }, .send, t⟩
  /-- Go `Close` step 3a (BufferedLog.go:60) joint with the `<-this.chClose`
  branch of the `select` (BufferedLog.go:126): the unbuffered send pairs
  with the goroutine's receive, which sets `run = false`. -/
  | cSend (b : BufferedLog) (d : Int) :
      Step cl sl ⟨b, .send, .selecting d⟩ .cSend ⟨b, .recv, .shutdownPrint⟩
  /-- BufferedLog.go:128: after leaving the loop path, the goroutine
  appends its own `"Async log shutdown"` marker via the internal print. -/
  | taskMark (b : BufferedLog) (c : CloserPC) :
      Step cl sl ⟨b, c, .shutdownPrint⟩ .taskMark
        ⟨{ b with buffer := b.buffer ++ [sl] }, c, .sendAck⟩
  /-- Go `Close` step 3b (BufferedLog.go:61) joint with the goroutine's final
  `this.chClose <- nil` (BufferedLog.go:135): the acknowledgment rendezvous,
  after which the goroutine has terminated. -/
  | cRecv (b : BufferedLog) :
      Step cl sl ⟨b, .recv, .sendAck⟩ .cRecv ⟨b, .flush, .done⟩
  /-- Go `Close` step 4 (BufferedLog.go:64): the final `flushLogs()` drains
  the whole buffer into the file. -/
  | cFlush (b : BufferedLog) (t : TaskPC) :
      Step cl sl ⟨b, .flush, t⟩ .cFlush
        ⟨{ b with buffer := [], file := b.file ++ b.buffer }, .closeFile, t⟩
  /-- Go `Close` step 5 (BufferedLog.go:67): `this.file.Close()`. -/
  | cClose (b : BufferedLog) (t : TaskPC) :
      Step cl sl ⟨b, .closeFile, t⟩ .cClose
        ⟨{ b with fileClosed := true }, .done, t⟩

/-- Finite labelled runs of `Step`. -/
inductive Steps (cl sl : Str) : Cfg → List Ev → Cfg → Prop where
  | refl (c : Cfg) : Steps cl sl c [] c
  | cons {c₁ c₂ c₃ : Cfg} {e : Ev} {tr : List Ev} :
      Step cl sl c₁ e c₂ → Steps cl sl c₂ tr c₃ → Steps cl sl c₁ (e :: tr) c₃

/-- The events executed by `Close` itself (the rendezvous steps are joint
with the goroutine but are statements of `Close`'s body). -/
def isCloserEv : Ev → Bool
  | .cDisable => true
  | .cMarker => true
  | .cSend => true
  | .cRecv => true
  | .cFlush => true
  | .cClose => true
  | _ => false

/-- The `Close` events still to be executed from a given closer pc. -/
def closerRemaining : CloserPC → List Ev
  | .idle => []
  | .disable => [.cDisable, .cMarker, .cSend, .cRecv, .cFlush, .cClose]
  | .marker => [.cMarker, .cSend, .cRecv, .cFlush, .cClose]
  | .send => [.cSend, .cRecv, .cFlush, .cClose]
  | .recv => [.cRecv, .cFlush, .cClose]
  | .flush => [.cFlush, .cClose]
  | .closeFile => [.cClose]
  | .done => []

/-- Inductive invariant of a `Close` run started from file contents `F` and
buffer contents `B`: it relates the closer's phase to the goroutine's phase
and to the conserved quantity `file ++ buffer`. -/
def Inv (F B : List Str) (cl sl : Str) (c : Cfg) : Prop :=
  match c.closer with
  | .idle => False
  | .disable => c.task.running ∧ c.log.file ++ c.log.buffer = F ++ B
  | .marker => c.task.running ∧ c.log.enabled = 0 ∧
      c.log.file ++ c.log.buffer = F ++ B
  | .send => c.task.running ∧ c.log.enabled = 0 ∧
      c.log.file ++ c.log.buffer = F ++ B ++ [cl]
  | .recv => c.log.enabled = 0 ∧
      ((c.task = .shutdownPrint ∧ c.log.file ++ c.log.buffer = F ++ B ++ [cl]) ∨
       (c.task = .sendAck ∧ c.log.file ++ c.log.buffer = F ++ B ++ [cl, sl]))
  | .flush => c.task = .done ∧ c.log.enabled = 0 ∧
      c.log.file ++ c.log.buffer = F ++ B ++ [cl, sl]
  | .closeFile => c.task = .done ∧ c.log.enabled = 0 ∧
      c.log.buffer = [] ∧ c.log.file = F ++ B ++ [cl, sl]
  | .done => c.task = .done ∧ c.log.enabled = 0 ∧
      c.log.buffer = [] ∧ c.log.file = F ++ B ++ [cl, sl] ∧
      c.log.fileClosed = true

/-- Concrete running logger used to exhibit a complete `Close` run. -/
def bW1 : BufferedLog :=
  ⟨"dir".data, [['m']], 1, [], 5, "n".data, false⟩

/-- The configuration in which that `Close` run ends. -/
def cW1 : Cfg :=
  ⟨⟨"dir".data, [], 0, [['m'], ['c'], ['s']], 5, "n".data, true⟩, .done, .done⟩

/-- Concrete running logger for a second, interleaved `Close` run (the
timer fires once before the shutdown rendezvous). -/
def bW2 : BufferedLog :=
  ⟨"e".data, [], 1, [], 7, "m".data, false⟩

/-- The configuration in which the second run ends. -/
def cW2 : Cfg :=
  ⟨⟨"e".data, [], 0, [['c'], ['s']], 7, "m".data, true⟩, .done, .done⟩

/-- Concrete logger state for the flush-interval scenarios. -/
def bW4 : BufferedLog :=
  ⟨"q".data, [], 1, [], 5, "r".data, false⟩

/-- The entries appended by foreground `Print` calls during a run: the
`fgPrint` labels, in call order (dropped prints do not appear). -/
def printedLines (tr : List Ev) : List Str :=
  tr.filterMap fun e =>
    match e with
    | .fgPrint l => some l
    | _ => none

/-- The canonical expanded message of one log entry, after `fixFormat`'s
newline discipline on the template, `Sprintf` expansion when arguments are
present (`logger.Print` is used when there are none), and the std logger's
final newline guarantee. -/
def expandedMsg (template : Str) (args : List GoVal) : Str :=
  let t := if template.getLast? = some '\n' then template
           else template ++ ['\n']
  let e := if args.isEmpty then t else sprintfGo t args
  if e.getLast? = some '\n' then e else e ++ ['\n']

/-- Concrete running logger for the print-then-close round-trip run. -/
def bW3 : BufferedLog :=
  ⟨"d".data, [], 1, [], 5, "p".data, false⟩

/-- The configuration in which that round-trip run ends. -/
def cW3 : Cfg :=
  ⟨⟨"d".data, [], 0, [['h'], ['c'], ['s']], 5, "p".data, true⟩, .done, .done⟩

/-- Lemma: `getLast?` of an append with a nonempty right part. -/
lemma getLast?_append_right {α : Type} (l₁ l₂ : List α) (h : l₂ ≠ []) :
    (l₁ ++ l₂).getLast? = l₂.getLast? := by
  cases l₂ with
  | nil => exact absurd rfl h
  | cons a t => exact List.getLast?_append_cons l₁ a t

/-- One step preserves `Inv` and consumes exactly the closer events that
`closerRemaining` predicts. -/
lemma step_inv_closer {F B : List Str} {cl sl : Str} {c₁ c₂ : Cfg} {e : Ev}
    (h : Step cl sl c₁ e c₂) (hinv : Inv F B cl sl c₁) :
    Inv F B cl sl c₂ ∧
      closerRemaining c₁.closer =
        [e].filter isCloserEv ++ closerRemaining c₂.closer := by
  cases h with
  | fgPrint b t l hb => exact absurd hinv (by simp [Inv])
  | fgDrop b t l hb => exact absurd hinv (by simp [Inv])
  | setInterval b c t n =>
    refine ⟨?_, rfl⟩
    cases c <;> simp_all [Inv, BufferedLog.SetFlushIntervalSec, TaskPC.running]
  | taskLoad b c =>
    refine ⟨?_, rfl⟩
    cases c <;> simp_all [Inv, TaskPC.running]
  | taskFlush b c d =>
    refine ⟨?_, rfl⟩
    cases c <;> simp_all [Inv, TaskPC.running, List.append_assoc]
  | cDisable b t =>
    refine ⟨?_, rfl⟩
    simp_all [Inv]
  | cMarker b t =>
    refine ⟨?_, rfl⟩
    simp only [Inv] at hinv ⊢
    obtain ⟨hrun, hen, hc⟩ := hinv
    exact ⟨hrun, hen, by rw [← List.append_assoc, hc]⟩
  | cSend b d =>
    refine ⟨?_, rfl⟩
    obtain ⟨hrun, hen, hc⟩ := hinv
    exact ⟨hen, Or.inl ⟨rfl, hc⟩⟩
  | taskMark b c =>
    refine ⟨?_, rfl⟩
    cases c with
    | recv =>
      simp only [Inv] at hinv
      obtain ⟨hen, hd⟩ := hinv
      rcases hd with ⟨htask, hc⟩ | ⟨htask, hc⟩
      · refine ⟨hen, Or.inr ⟨rfl, ?_⟩⟩
        show b.file ++ (b.buffer ++ [sl]) = F ++ B ++ [cl, sl]
        calc b.file ++ (b.buffer ++ [sl])
            = b.file ++ b.buffer ++ [sl] := (List.append_assoc _ _ _).symm
          _ = F ++ B ++ [cl] ++ [sl] := by rw [hc]
          _ = F ++ B ++ [cl, sl] := by simp [List.append_assoc]
      · exact absurd htask (by simp)
    | idle => simp_all [Inv]
    | disable => simp_all [Inv, TaskPC.running]
    | marker => simp_all [Inv, TaskPC.running]
    | send => simp_all [Inv, TaskPC.running]
    | flush => simp_all [Inv]
    | closeFile => simp_all [Inv]
    | done => simp_all [Inv]
  | cRecv b =>
    refine ⟨?_, rfl⟩
    simp_all [Inv]
  | cFlush b t =>
    refine ⟨?_, rfl⟩
    simp_all [Inv, List.append_assoc]
  | cClose b t =>
    refine ⟨?_, rfl⟩
    simp_all [Inv]

/-- A whole run preserves `Inv`, and its closer-event projection accounts
exactly for the closer's progress. -/
lemma steps_inv_closer {F B : List Str} {cl sl : Str} {c₁ c₂ : Cfg}
    {tr : List Ev} (h : Steps cl sl c₁ tr c₂) (hinv : Inv F B cl sl c₁) :
    Inv F B cl sl c₂ ∧
      closerRemaining c₁.closer =
        tr.filter isCloserEv ++ closerRemaining c₂.closer := by
  induction h with
  | refl c => exact ⟨hinv, by simp⟩
  | cons hstep hrest ih =>
    rename_i e tr'
    obtain ⟨hinv₂, htr₂⟩ := step_inv_closer hstep hinv
    obtain ⟨hinv₃, htr₃⟩ := ih hinv₂
    refine ⟨hinv₃, ?_⟩
    rw [htr₂, htr₃]
    cases he : isCloserEv e <;> simp [List.filter_cons, he]

/-- Claim C1: for every BufferedLog, `Close()` performs exactly the ordered
sequence — set `enabled` to false; append the `"==== Close log ===="`
marker to the in-memory buffer via the internal print path (bypassing the
enabled gate); send the shutdown signal and block until the task's
acknowledgment; perform one final flush that drains the entire buffer
(including the close marker) to the file; close the file handle — so the
close marker always reaches disk even though the logger is disabled.
Formally: in every complete run of `Close` (from acquiring the write lock
with the flush goroutine still in its loop, under arbitrary interleaving
with the goroutine and the lock-free atomics), the closer executes exactly
`[cDisable, cMarker, cSend, cRecv, cFlush, cClose]` in that order, and the
run ends disabled, with an empty buffer, a closed file, and the file
holding the old contents, the old buffer, the close marker and the
shutdown marker. -/
theorem close_performs_ordered_sequence (cl sl : Str) (b : BufferedLog)
    (t0 : TaskPC) (tr : List Ev) (c' : Cfg) (ht : t0.running)
    (h : Steps cl sl ⟨b, .disable, t0⟩ tr c') (hdone : c'.closer = .done) :
    tr.filter isCloserEv =
      [.cDisable, .cMarker, .cSend, .cRecv, .cFlush, .cClose] ∧
    c'.log.enabled = 0 ∧ c'.log.buffer = [] ∧
    c'.log.file = b.file ++ b.buffer ++ [cl, sl] ∧
    c'.log.fileClosed = true ∧ c'.task = .done := by
  have hinv0 : Inv b.file b.buffer cl sl ⟨b, .disable, t0⟩ := ⟨ht, rfl⟩
  obtain ⟨hinvF, htr⟩ := steps_inv_closer h hinv0
  rw [show (Cfg.mk b .disable t0).closer = .disable from rfl, hdone] at htr
  simp only [closerRemaining, List.append_nil] at htr
  simp only [Inv, hdone] at hinvF
  obtain ⟨htask, hen, hbuf, hfile, hcl⟩ := hinvF
  exact ⟨htr.symm, hen, hbuf, hfile, hcl, htask⟩

/-- Witness for C1: a complete concrete `Close` run from `bW1` with the
goroutine parked in its `select`, ending in `cW1`. -/
theorem close_performs_ordered_sequence_witness :
    ([Ev.cDisable, Ev.cMarker, Ev.cSend, Ev.taskMark, Ev.cRecv, Ev.cFlush,
        Ev.cClose].filter isCloserEv =
      [.cDisable, .cMarker, .cSend, .cRecv, .cFlush, .cClose]) ∧
    cW1.log.enabled = 0 ∧ cW1.log.buffer = [] ∧
    cW1.log.file = bW1.file ++ bW1.buffer ++ [['c'], ['s']] ∧
    cW1.log.fileClosed = true ∧ cW1.task = .done :=
  close_performs_ordered_sequence ['c'] ['s'] bW1 (.selecting 5) _ cW1
    trivial
    (Steps.cons (Step.cDisable _ _) (Steps.cons (Step.cMarker _ _)
      (Steps.cons (Step.cSend _ _) (Steps.cons (Step.taskMark _ _)
        (Steps.cons (Step.cRecv _) (Steps.cons (Step.cFlush _ _)
          (Steps.cons (Step.cClose _ _) (Steps.refl _))))))))
    rfl

/-- Claim C2: `Close()` returns only after the background flush task has
terminated: in every run that completes the close protocol, the goroutine's
program counter is `done` — it is never still waiting in its loop after
`Close` returns. -/
theorem close_returns_after_task_done (cl sl : Str) (b : BufferedLog)
    (t0 : TaskPC) (tr : List Ev) (c' : Cfg) (ht : t0.running)
    (h : Steps cl sl ⟨b, .disable, t0⟩ tr c') (hdone : c'.closer = .done) :
    c'.task = .done := by
  have hinv0 : Inv b.file b.buffer cl sl ⟨b, .disable, t0⟩ := ⟨ht, rfl⟩
  obtain ⟨hinvF, _⟩ := steps_inv_closer h hinv0
  simp only [Inv, hdone] at hinvF
  exact hinvF.1

/-- Witness for C2: a concrete `Close` run in which the flush timer fires
once more before the shutdown rendezvous; it still ends with the goroutine
terminated. -/
theorem close_returns_after_task_done_witness : cW2.task = .done :=
  close_returns_after_task_done ['c'] ['s'] bW2 (.selecting 7) _ cW2
    trivial
    (Steps.cons (Step.taskFlush _ _ _) (Steps.cons (Step.taskLoad _ _)
      (Steps.cons (Step.cDisable _ _) (Steps.cons (Step.cMarker _ _)
        (Steps.cons (Step.cSend _ _) (Steps.cons (Step.taskMark _ _)
          (Steps.cons (Step.cRecv _) (Steps.cons (Step.cFlush _ _)
            (Steps.cons (Step.cClose _ _) (Steps.refl _))))))))))
    rfl

/-- Claim C4: the flush goroutine re-reads the interval from the atomic
`flushSec` at the start of every wait.  A `SetFlushIntervalSec n` step taken
while the goroutine is blocked in a wait of duration `d` leaves that wait
blocked with duration `d` (the in-progress wait is not interrupted) and
stores `n`; and when that wait then expires and the loop re-arms
(`taskLoad`), the next wait's duration is `n`. -/
theorem interval_reread_next_cycle (cl sl : Str) (c c' : Cfg) (n d : Int)
    (h1 : Step cl sl c (.setInterval n) c') (hd : c.task = .selecting d) :
    c'.task = .selecting d ∧ c'.log.flushSec = n ∧
    (∀ e c₂, Step cl sl c' (.taskFlush e) c₂ →
      ∀ c₃, Step cl sl c₂ .taskLoad c₃ → c₃.task = .selecting n) := by
  cases h1 with
  | setInterval b cpc t =>
    refine ⟨hd, rfl, ?_⟩
    intro e c₂ h2 c₃ h3
    cases h2 with
    | taskFlush b₂ cpc₂ d₂ =>
      cases h3 with
      | taskLoad b₃ cpc₃ => rfl

/-- Witness for C4: a concrete `SetFlushIntervalSec 9` while the goroutine
waits with duration 5. -/
theorem interval_reread_next_cycle_witness :
    (Cfg.mk (bW4.SetFlushIntervalSec 9) .idle (.selecting 5)).task
        = .selecting 5 ∧
    (Cfg.mk (bW4.SetFlushIntervalSec 9) .idle (.selecting 5)).log.flushSec
        = 9 ∧
    (∀ e c₂,
      Step ['c'] ['s'] (Cfg.mk (bW4.SetFlushIntervalSec 9) .idle
        (.selecting 5)) (.taskFlush e) c₂ →
      ∀ c₃, Step ['c'] ['s'] c₂ .taskLoad c₃ → c₃.task = .selecting 9) :=
  interval_reread_next_cycle ['c'] ['s'] ⟨bW4, .idle, .selecting 5⟩ _ 9 5
    (Step.setInterval bW4 .idle (.selecting 5) 9) rfl

/-- Claim C9: for every int32 value `n`, including zero and negative
values, `SetFlushIntervalSec n` stores `n` with no validation and an
immediately following `FlushIntervalSec` returns exactly `n`. -/
theorem flush_interval_set_get (b : BufferedLog) (n : Int)
    (_h1 : -(2 ^ 31) ≤ n) (_h2 : n < 2 ^ 31) :
    (b.SetFlushIntervalSec n).FlushIntervalSec = n := rfl

/-- Witness for C9 at the (negative) interval `-3`. -/
theorem flush_interval_set_get_witness :
    ((⟨"d".data, [], 1, [], 5, "x".data, false⟩ :
        BufferedLog).SetFlushIntervalSec (-3)).FlushIntervalSec = -3 :=
  flush_interval_set_get _ (-3) (by decide) (by decide)

/-- Claim C10: for every `logType` other than `BufferedFile` and
`DirectFile` (with directory creation and file open succeeding), `New` does
not return a failure indicator: the `switch` leaves the handle nil and
`newLog.Print("==== Log init ====")` at init.go:106 crashes with a nil
dereference. -/
theorem new_unknown_type_nil_deref (name logPath : Str) (t : Int)
    (h0 : t ≠ BufferedFile) (h1 : t ≠ DirectFile) :
    New true true name logPath t = .panicked .nilDereference := by
  simp [New, h0, h1]

/-- Witness for C10 at `logType = 2`. -/
theorem new_unknown_type_nil_deref_witness :
    New true true "a".data "p".data 2 = .panicked .nilDereference :=
  new_unknown_type_nil_deref "a".data "p".data 2 (by decide) (by decide)

/-- Counterexample to claim C7 as stated: when the log directory cannot be
created, `New` does NOT surface the failure as a null handle — `mkdir`
(init.go:186-188) panics, crashing the process. -/
theorem new_mkdir_failure_panics_cex :
    New false true "a".data "p".data BufferedFile = .panicked .mkdirFailed ∧
    New false true "a".data "p".data BufferedFile ≠ .returned none := by
  exact ⟨rfl, by decide⟩

/-- Claim C7 (amended): when the log file cannot be opened, `New` surfaces
the failure as a failed construction (the nil handle of init.go:64-66); but
when the log directory cannot be created, `mkdir` panics and crashes the
process instead. -/
theorem new_failure_surface (name logPath : Str) (t : Int) (mk op : Bool) :
    (mk = true → op = false → New mk op name logPath t = .returned none) ∧
    (mk = false → New mk op name logPath t = .panicked .mkdirFailed) := by
  constructor
  · rintro rfl rfl
    rfl
  · rintro rfl
    rfl

/-- Witness for C7's amended theorem: open failure yields the nil handle,
mkdir failure yields the panic. -/
theorem new_failure_surface_witness :
    (New true false "a".data "p".data 0 = .returned none) ∧
    (New false true "a".data "p".data 0 = .panicked .mkdirFailed) :=
  ⟨(new_failure_surface "a".data "p".data 0 true false).1 rfl rfl,
   (new_failure_surface "a".data "p".data 0 false true).2 rfl⟩

/-- Counterexample to claim C8 as stated: on the empty template the
formatter is not total — `fixFormat` evaluates `format[len(format)-1]`,
an index out of range, and panics (modelled by `none`). -/
theorem fixFormat_empty_template_cex : fixFormat "x".data [] = none := rfl

/-- Claim C8 (amended): the formatter is pure and total on every nonempty
template; only the empty template aborts (index out of range in
`fixFormat`). -/
theorem fixFormat_total_on_nonempty (name t : Str) (h : t ≠ []) :
    (fixFormat name t).isSome = true := by
  cases hl : t.getLast? with
  | none =>
    refine absurd ?_ h
    cases t with
    | nil => rfl
    | cons a r => simp at hl
  | some c =>
    simp only [fixFormat, hl]
    split <;> rfl

/-- Witness for C8's amended theorem. -/
theorem fixFormat_total_on_nonempty_witness :
    (fixFormat "x".data "hi".data).isSome = true :=
  fixFormat_total_on_nonempty "x".data "hi".data (by decide)

/-- Counterexample to claim C6 as stated: for the template `"a\n\n"` the
formatted line does not end with exactly one trailing newline — `fixFormat`
sees a final `'\n'`, appends nothing, and the line ends with a double
newline. -/
theorem fixFormat_double_newline_cex :
    bufferedPrintBody "n".data "a\n\n".data [] = some ("[N] a\n\n".data) ∧
    ("[N] a\n\n".data).reverse.take 2 = ['\n', '\n'] := by
  exact ⟨by decide, by decide⟩

/-- Claim C6 (amended): for every name and nonempty template, the
formatter's output ends in a newline; it appends exactly one newline when
the template does not already end in one (and then the output never ends in
a double newline), and appends nothing when the template already ends in
one — so trailing newlines already inside the template (e.g. `"a\n\n"`)
are passed through, and the empty template aborts instead of returning. -/
theorem fixFormat_newline_discipline (name t : Str) (h : t ≠ []) :
    ∃ out, fixFormat name t = some out ∧ out.getLast? = some '\n' ∧
      (t.getLast? = some '\n' → out = fmtTag name ++ t) ∧
      (t.getLast? ≠ some '\n' →
        out = fmtTag name ++ t ++ ['\n'] ∧
        out.reverse.take 2 ≠ ['\n', '\n']) := by
  cases hl : t.getLast? with
  | none =>
    refine absurd ?_ h
    cases t with
    | nil => rfl
    | cons a r => simp at hl
  | some c =>
    by_cases hc : c = '\n'
    · subst hc
      refine ⟨fmtTag name ++ t, by simp [fixFormat, hl], ?_, fun _ => rfl, ?_⟩
      · rw [getLast?_append_right _ _ h]
        exact hl
      · intro hne
        exact absurd rfl hne
    · refine ⟨fmtTag name ++ t ++ ['\n'], by simp [fixFormat, hl, hc], ?_,
        ?_, ?_⟩
      · rw [getLast?_append_right _ _ (by simp)]
        rfl
      · intro hnl
        exact absurd (Option.some.inj hnl) hc
      · intro _
        refine ⟨rfl, ?_⟩
        have hrev : t.reverse.head? = some c := by
          rw [List.head?_reverse]
          exact hl
        obtain ⟨r, hr⟩ : ∃ r, t.reverse = c :: r := by
          cases htr : t.reverse with
          | nil => rw [htr] at hrev; simp at hrev
          | cons x xs =>
            rw [htr] at hrev
            simp at hrev
            exact ⟨xs, by rw [hrev]⟩
        simp [List.reverse_append, hr, List.take, hc]

/-- Witness for C6's amended theorem at the template `"ab"`. -/
theorem fixFormat_newline_discipline_witness :
    ∃ out, fixFormat "q".data "ab".data = some out ∧
      out.getLast? = some '\n' ∧
      (("ab".data).getLast? = some '\n' → out = fmtTag "q".data ++ "ab".data) ∧
      (("ab".data).getLast? ≠ some '\n' →
        out = fmtTag "q".data ++ "ab".data ++ ['\n'] ∧
        out.reverse.take 2 ≠ ['\n', '\n']) :=
  fixFormat_newline_discipline "q".data "ab".data (by decide)

/-- Counterexample to claim C5 as stated: with template `"%d"` and the
single argument `5`, the enabled Buffered and Direct loggers do not produce
the identical formatted entry — Buffered expands to `"[X] 5\n"` as a
standard formatter would, while Direct's double variadic wrapping makes the
verb format the wrapped argument slice, producing `"[X] [[5]]\n"`. -/
theorem direct_buffered_differ_cex :
    bufferedPrintBody "x".data "%d".data [.int 5] = some ("[X] 5\n".data) ∧
    directPrintBody "x".data "%d".data [.int 5] = some ("[X] [[5]]\n".data) ∧
    bufferedPrintBody "x".data "%d".data [.int 5] ≠
      directPrintBody "x".data "%d".data [.int 5] := by
  exact ⟨by decide, by decide, by decide⟩

/-- Claim C5 (amended): for every nonempty argument list, the Buffered
variant expands the positional arguments into the template exactly as the
standard formatter (its `v...` forwarding), while the Direct variant
behaves as the Buffered one would if handed the doubly wrapped argument
list as its only operand (its `v` forwarding wraps the slice twice), so the
two variants agree only up to that wrapping, not verbatim. -/
theorem direct_print_wraps_args (name t : Str) (args : List GoVal)
    (h : args ≠ []) :
    directPrintBody name t args =
      bufferedPrintBody name t [.list [.list args]] := by
  unfold directPrintBody bufferedPrintBody
  cases fixFormat name t with
  | none => rfl
  | some f =>
    have he : args.isEmpty = false := by
      cases args with
      | nil => exact absurd rfl h
      | cons a as => rfl
    simp [he]

/-- Witness for C5's amended theorem. -/
theorem direct_print_wraps_args_witness :
    directPrintBody "x".data "%d".data [.int 5] =
      bufferedPrintBody "x".data "%d".data [.list [.list [.int 5]]] :=
  direct_print_wraps_args "x".data "%d".data [.int 5]
    (List.cons_ne_nil _ _)

/-- Lemma: `strings.ToUpper` maps only `'%'` itself to `'%'` (uppercasing a
lowercase letter lands in the uppercase letters). -/
lemma toUpper_pct {c : Char} (h : c.toUpper = '%') : c = '%' := by
  unfold Char.toUpper at h
  by_cases hc : c.toNat ≥ 97 ∧ c.toNat ≤ 122
  · rw [if_pos hc] at h
    exfalso
    have hv : (c.toNat - 32).isValidChar := Or.inl (by omega)
    have h3 : (Char.ofNat (c.toNat - 32)).toNat = c.toNat - 32 := by
      rw [Char.ofNat, dif_pos hv]
      rfl
    have h2 := congrArg Char.toNat h
    rw [h3] at h2
    have h4 : ('%' : Char).toNat = 37 := rfl
    omega
  · rwa [if_neg hc] at h

/-- Lemma: a log name without `'%'` yields a `"[UPPER] "` tag without
`'%'`, so the tag contains no formatting directive. -/
lemma pct_not_mem_fmtTag (name : Str) (h : '%' ∉ name) :
    '%' ∉ fmtTag name := by
  intro hm
  unfold fmtTag goUpper at hm
  rcases List.mem_append.mp hm with hm1 | hm2
  · rcases List.mem_cons.mp hm1 with he | hmap
    · exact absurd he (by decide)
    · obtain ⟨c, hcmem, hcup⟩ := List.mem_map.mp hmap
      exact h (toUpper_pct hcup ▸ hcmem)
  · exact absurd hm2 (by decide)

/-- Lemma: `Sprintf` copies a leading non-`'%'` character literally. -/
lemma sprintfGo_cons_of_ne (c : Char) (rest : Str) (args : List GoVal)
    (h : c ≠ '%') : sprintfGo (c :: rest) args = c :: sprintfGo rest args := by
  rw [sprintfGo.eq_def]
  split <;> simp_all

/-- Lemma: `Sprintf` copies a `'%'`-free leading segment literally. -/
lemma sprintfGo_append_of_no_pct (l rest : Str) (args : List GoVal)
    (h : '%' ∉ l) :
    sprintfGo (l ++ rest) args = l ++ sprintfGo rest args := by
  induction l with
  | nil => simp
  | cons c l' ih =>
    have hc : c ≠ '%' := by
      intro he
      subst he
      exact h (List.mem_cons_self _ _)
    have h' : '%' ∉ l' := fun hm => h (List.mem_cons_of_mem _ hm)
    rw [List.cons_append, sprintfGo_cons_of_ne c (l' ++ rest) args hc, ih h',
      List.cons_append]

/-- Lemma: a tagged body ends in a newline exactly when its part after the
tag does (the tag itself ends in `' '`). -/
lemma fmtTag_append_getLast (name e : Str) :
    (fmtTag name ++ e).getLast? = some '\n' ↔ e.getLast? = some '\n' := by
  by_cases he : e = []
  · subst he
    constructor
    · intro hx
      rw [List.append_nil] at hx
      unfold fmtTag at hx
      rw [getLast?_append_right _ _ (by simp)] at hx
      exact absurd hx (by decide)
    · intro hx
      exact absurd hx (by decide)
  · rw [getLast?_append_right _ _ he]

/-- Lemma: writing a tagged body through `log.Logger.Output` yields the
flag header, the tag, and the body newline-terminated exactly once more
when it was not already. -/
lemma loggerOutput_fmtTag (flags y mo d h mi s ns : Nat) (file : Str)
    (line : Nat) (name e : Str) :
    loggerOutput flags y mo d h mi s ns file line (fmtTag name ++ e) =
      formatHeader flags y mo d h mi s ns file line ++
        (fmtTag name ++ (if e.getLast? = some '\n' then e else e ++ ['\n'])) := by
  unfold loggerOutput
  by_cases he : e.getLast? = some '\n'
  · rw [if_pos he, if_pos ((fmtTag_append_getLast name e).mpr he)]
  · rw [if_neg he, if_neg (fun hco => he ((fmtTag_append_getLast name e).mp hco)),
      List.append_assoc]

/-- Lemma: one `Print`/`print` call on a logger whose `fixFormat` result is
the tag followed by `msgN` lands in the buffer as the flag header, the tag
and the `Sprintf`-expanded, newline-terminated message. -/
lemma bufferedLogLine_eq (y mo d h mi s ns : Nat) (file : Str) (line : Nat)
    (name msg : Str) (args : List GoVal) (msgN : Str)
    (hfix : fixFormat name msg = some (fmtTag name ++ msgN))
    (hpct : '%' ∉ fmtTag name) :
    bufferedLogLine y mo d h mi s ns file line name msg args =
      some (formatHeader FLogFlags y mo d h mi s ns file line ++
        (fmtTag name ++
          (if (if args.isEmpty then msgN else sprintfGo msgN args).getLast?
              = some '\n'
           then (if args.isEmpty then msgN else sprintfGo msgN args)
           else (if args.isEmpty then msgN else sprintfGo msgN args)
             ++ ['\n']))) := by
  unfold bufferedLogLine bufferedPrintBody
  rw [hfix]
  by_cases ha : args.isEmpty
  · simp only [ha, if_true, Option.map_some']
    rw [loggerOutput_fmtTag]
  · simp [ha]
    rw [sprintfGo_append_of_no_pct _ _ _ hpct, loggerOutput_fmtTag]

/-- Lemma: while `Close` has not started, the closer stays idle, the flush
goroutine stays in its loop, and `file ++ buffer` grows by exactly the
printed entries, in call order. -/
lemma running_phase {cl sl : Str} {c₁ c₂ : Cfg} {tr : List Ev}
    (h : Steps cl sl c₁ tr c₂) (hidle : c₁.closer = .idle)
    (hrun : c₁.task.running) :
    c₂.closer = .idle ∧ c₂.task.running ∧
    c₂.log.file ++ c₂.log.buffer =
      c₁.log.file ++ c₁.log.buffer ++ printedLines tr := by
  induction h with
  | refl c => exact ⟨hidle, hrun, by simp [printedLines]⟩
  | cons hstep hrest ih =>
    cases hstep with
    | fgPrint b t l hb =>
      obtain ⟨hi, hr, heq⟩ := ih rfl hrun
      refine ⟨hi, hr, ?_⟩
      rw [heq]
      simp [printedLines, List.append_assoc]
    | fgDrop b t l hb =>
      obtain ⟨hi, hr, heq⟩ := ih rfl hrun
      exact ⟨hi, hr, by rw [heq]; simp [printedLines]⟩
    | setInterval b cpc t n =>
      obtain ⟨hi, hr, heq⟩ := ih hidle hrun
      exact ⟨hi, hr,
        by rw [heq]; simp [printedLines, BufferedLog.SetFlushIntervalSec]⟩
    | taskLoad b cpc =>
      obtain ⟨hi, hr, heq⟩ := ih hidle trivial
      exact ⟨hi, hr, by rw [heq]; simp [printedLines]⟩
    | taskFlush b cpc d =>
      obtain ⟨hi, hr, heq⟩ := ih hidle trivial
      refine ⟨hi, hr, ?_⟩
      rw [heq]
      simp [printedLines, List.append_assoc]
    | taskMark b cpc => exact absurd hrun (by simp [TaskPC.running])
    | cDisable b t => simp at hidle
    | cMarker b t => simp at hidle
    | cSend b d => simp at hidle
    | cRecv b => simp at hidle
    | cFlush b t => simp at hidle
    | cClose b t => simp at hidle

/-- Counterexample to claim C3 as stated: the entry written to the backing
file is not exactly `"[<UPPERNAME>] <message>\n"` — the `log.Logger`
created with `FLogFlags` (init.go:30, 81) prepends a date, microsecond
timestamp and short-file header to every line. -/
theorem entry_not_bare_canonical_cex :
    bufferedLogLine 2014 1 2 3 4 5 6000 "BufferedLog.go".data 161
        "test".data "hi".data [] =
      some ("2014/01/02 03:04:05.000006 BufferedLog.go:161: [TEST] hi\n".data) ∧
    bufferedLogLine 2014 1 2 3 4 5 6000 "BufferedLog.go".data 161
        "test".data "hi".data [] ≠ some ("[TEST] hi\n".data) := by
  exact ⟨by decide, by decide⟩

/-- Claim C3 (amended): every entry written to the backing file, the
synthetic markers included, consists of the `FLogFlags` header (date,
microsecond time, short `file:line`) followed by the canonical line
`"[<UPPERNAME>] <expanded message>"` and a newline — for every argument
list, empty or not (nonempty template, `'%'`-free name); and every message
printed on an enabled logger appears post-formatting in the backing file
after `close()`, in call order, exactly once: a running phase of prints
followed by a complete `Close` leaves the file holding the prior contents,
the printed entries in call order, and the two markers. -/
theorem entry_header_canonical_format :
    (∀ (y mo d h mi s ns : Nat) (file : Str) (line : Nat) (name msg : Str)
        (args : List GoVal), msg ≠ [] → '%' ∉ name →
      bufferedLogLine y mo d h mi s ns file line name msg args =
        some (formatHeader FLogFlags y mo d h mi s ns file line ++
          (fmtTag name ++ expandedMsg msg args))) ∧
    (∀ (cl sl : Str) (b₀ : BufferedLog) (t₀ : TaskPC) (tr₁ : List Ev)
        (c₁ : Cfg) (tr₂ : List Ev) (c₂ : Cfg), t₀.running →
      Steps cl sl ⟨b₀, .idle, t₀⟩ tr₁ c₁ →
      Steps cl sl ⟨c₁.log, .disable, c₁.task⟩ tr₂ c₂ →
      c₂.closer = .done →
      c₂.log.file = b₀.file ++ b₀.buffer ++ printedLines tr₁ ++ [cl, sl]) := by
  constructor
  · intro y mo d h mi s ns file line name msg args hne hpct
    have hptag : '%' ∉ fmtTag name := pct_not_mem_fmtTag name hpct
    cases hl : msg.getLast? with
    | none =>
      refine absurd ?_ hne
      cases msg with
      | nil => rfl
      | cons a r => simp at hl
    | some c =>
      by_cases hc : c = '\n'
      · subst hc
        have hfix : fixFormat name msg = some (fmtTag name ++ msg) := by
          simp [fixFormat, hl]
        rw [bufferedLogLine_eq y mo d h mi s ns file line name msg args msg
          hfix hptag]
        simp [expandedMsg, hl]
      · have hfix : fixFormat name msg
            = some (fmtTag name ++ (msg ++ ['\n'])) := by
          simp [fixFormat, hl, hc, List.append_assoc]
        rw [bufferedLogLine_eq y mo d h mi s ns file line name msg args
          (msg ++ ['\n']) hfix hptag]
        simp [expandedMsg, hl, hc]
  · intro cl sl b₀ t₀ tr₁ c₁ tr₂ c₂ ht h1 h2 hdone
    obtain ⟨hidle₁, hrun₁, heq₁⟩ := running_phase h1 rfl ht
    have hinv0 : Inv c₁.log.file c₁.log.buffer cl sl
        ⟨c₁.log, .disable, c₁.task⟩ := ⟨hrun₁, rfl⟩
    obtain ⟨hinvF, _⟩ := steps_inv_closer h2 hinv0
    simp only [Inv, hdone] at hinvF
    obtain ⟨_, _, _, hfile, _⟩ := hinvF
    rw [hfile, heq₁]

/-- Witness for C3's amended theorem: a format instance that actually
expands an argument (`"n=%d"` with `7`), and a concrete run with one
enabled print followed by a complete close. -/
theorem entry_header_canonical_format_witness :
    (bufferedLogLine 1 2 3 4 5 6 7000 "f.go".data 10 "a".data "n=%d".data
        [.int 7] =
      some (formatHeader FLogFlags 1 2 3 4 5 6 7000 "f.go".data 10 ++
        (fmtTag "a".data ++ expandedMsg "n=%d".data [.int 7]))) ∧
    cW3.log.file =
      bW3.file ++ bW3.buffer ++ printedLines [Ev.fgPrint ['h']]
        ++ [['c'], ['s']] :=
  ⟨entry_header_canonical_format.1 1 2 3 4 5 6 7000 "f.go".data 10 "a".data
      "n=%d".data [.int 7] (by decide) (by decide),
   entry_header_canonical_format.2 ['c'] ['s'] bW3 (.selecting 5)
      [Ev.fgPrint ['h']] _ _ cW3 trivial
      (Steps.cons (Step.fgPrint bW3 (.selecting 5) ['h'] (by decide))
        (Steps.refl _))
      (Steps.cons (Step.cDisable _ _) (Steps.cons (Step.cMarker _ _)
        (Steps.cons (Step.cSend _ _) (Steps.cons (Step.taskMark _ _)
          (Steps.cons (Step.cRecv _) (Steps.cons (Step.cFlush _ _)
            (Steps.cons (Step.cClose _ _) (Steps.refl _))))))))
      rfl⟩

end Flog
